import Mathlib

/-!
Verification development for the memento-mcp embedding-consistency and
hybrid-retrieval subsystem.  The definitions below are shallow embeddings of
the TypeScript sources: `src/config/EmbeddingConfigValidator.ts`,
`src/embeddings/config.ts`, `src/embeddings/VoyageAIEmbeddingService.ts`,
`src/embeddings/CohereRerankingService.ts`,
`src/storage/neo4j/Neo4jReindexManager.ts` and the `Neo4jVectorStore` class
(its `hybridSearchWithRRF` RRF fusion) found in the staged source bundle
`src/usage-analysis.cypher`.  JavaScript-specific behaviour (truthiness of
`||`, `parseInt`, `String.prototype.includes`, object spread, `Map` insertion
order, stable `Array.prototype.sort`) is modelled explicitly.
-/

namespace Memento

/-! ## JavaScript primitives -/

/-- Truthiness of an optional environment string: `undefined` and the empty
string are falsy, every other string is truthy. -/
def jsTruthyStr : Option String → Bool
  | none => false
  | some s => s ≠ ""

/-- `a || b` on an optional string with a string default: the default is taken
when the option is absent or the empty string. -/
def jsOrStr (o : Option String) (d : String) : String :=
  match o with
  | none => d
  | some s => if s = "" then d else s

/-- `a || b` on an optional natural number with a default: the default is taken
when the option is absent or `0` (`0` is falsy in JavaScript). -/
def jsOrNat (o : Option Nat) (d : Nat) : Nat :=
  match o with
  | none => d
  | some v => if v = 0 then d else v

/-- Value of a list of decimal digit characters. -/
def digitsToNat (ds : List Char) : Nat :=
  ds.foldl (fun a c => a * 10 + (c.toNat - 48)) 0

/-- Parse a maximal run of leading decimal digits; `none` when the run is
empty (JavaScript `NaN`). -/
def parseLeadingDigits (cs : List Char) : Option Nat :=
  let ds := cs.takeWhile Char.isDigit
  if ds = [] then none else some (digitsToNat ds)

/-- JavaScript `parseInt(s, 10)`: skip leading whitespace, accept an optional
sign, read leading digits, ignore the rest; `none` models `NaN`. -/
def jsParseInt (s : String) : Option Int :=
  let cs := s.data.dropWhile (fun c => c = ' ' ∨ c = '\t' ∨ c = '\n' ∨ c = '\r')
  match cs with
  | '-' :: rest => (parseLeadingDigits rest).map (fun n => -(n : Int))
  | '+' :: rest => (parseLeadingDigits rest).map (fun n => (n : Int))
  | rest => (parseLeadingDigits rest).map (fun n => (n : Int))

/-- Does `pat` occur as a contiguous sublist of `s`? (substring containment
on character lists, kernel-computable). -/
def listIncludes (s pat : List Char) : Bool :=
  pat.isPrefixOf s ||
    match s with
    | [] => false
    | _ :: rest => listIncludes rest pat

/-- JavaScript `haystack.includes(needle)` (substring containment). -/
def jsIncludes (s pat : String) : Bool :=
  listIncludes s.data pat.data

/-- JavaScript `s.startsWith(pat)` (kernel-computable prefix test). -/
def jsStartsWith (s pat : String) : Bool :=
  pat.data.isPrefixOf s.data

/-- JavaScript strict numeric equality where `none` models `NaN`
(`NaN !== x` for every `x`, including `NaN`). -/
def jsNumEq (o1 o2 : Option Int) : Bool :=
  match o1, o2 with
  | some a, some b => a = b
  | _, _ => false

/-! ## src/embeddings/config.ts -/

/-- Static OpenAI model → dimension table (`OPENAI_MODEL_DIMENSIONS`). -/
def OPENAI_MODEL_DIMENSIONS : List (String × Nat) :=
  [("text-embedding-3-small", 1536),
   ("text-embedding-3-large", 3072),
   ("text-embedding-ada-002", 1536)]

/-- Static Voyage AI model → dimension table (`VOYAGE_MODEL_DIMENSIONS`). -/
def VOYAGE_MODEL_DIMENSIONS : List (String × Nat) :=
  [("voyage-3", 1024),
   ("voyage-3-large", 1024),
   ("voyage-3-lite", 512),
   ("voyage-finance-2", 1024),
   ("voyage-multilingual-2", 1024),
   ("voyage-law-2", 1024),
   ("voyage-code-2", 1536),
   ("voyage-2", 1024),
   ("voyage-large-2", 1536),
   ("voyage-large-2-instruct", 1024)]

/-- `getModelDimensions`: Voyage models (name starting with `voyage-`) fall
back to 1024, all other models fall back to 1536. -/
def getModelDimensions (modelName : String) : Nat :=
  if jsStartsWith modelName "voyage-" then
    (VOYAGE_MODEL_DIMENSIONS.lookup modelName).getD 1024
  else
    (OPENAI_MODEL_DIMENSIONS.lookup modelName).getD 1536

/-! ## src/config/EmbeddingConfigValidator.ts -/

/-- The environment variables read by `EmbeddingConfigValidator.validate`.
`none` models an unset variable. -/
structure Env where
  MOCK_EMBEDDINGS : Option String := none
  OPENAI_API_KEY : Option String := none
  OPENAI_EMBEDDING_MODEL : Option String := none
  OPENAI_EMBEDDING_DIMENSIONS : Option String := none
  NEO4J_VECTOR_DIMENSIONS : Option String := none

/-- `EmbeddingConfigSummary` of the validator. -/
structure EmbeddingConfigSummary where
  provider : String
  model : String
  dimensions : Int
  dimensionsSource : String
  vectorIndexDimensions : Int
  vectorIndexSource : String
  dimensionsMatch : Bool
  apiKeyConfigured : Bool
  mockEmbeddings : Bool

/-- `ConfigValidationResult` of the validator. -/
structure ConfigValidationResult where
  isValid : Bool
  warnings : List String
  errors : List String
  config : EmbeddingConfigSummary

/-- The warning text pushed for a model missing from the OpenAI table. -/
def unrecognizedModelWarning (embeddingModel : String) : String :=
  s!"Unrecognized embedding model \"{embeddingModel}\". " ++
    "Known models: " ++ String.intercalate ", " (OPENAI_MODEL_DIMENSIONS.map Prod.fst)

/-- `EmbeddingConfigValidator.validate`, embedded over an explicit
environment.  Warning/error push order follows the source. -/
def validate (env : Env) : ConfigValidationResult :=
  let mockEmbeddings : Bool := env.MOCK_EMBEDDINGS = some "true"
  let apiKeyConfigured : Bool := jsTruthyStr env.OPENAI_API_KEY
  let embeddingModel : String := jsOrStr env.OPENAI_EMBEDDING_MODEL "text-embedding-3-small"
  let isRecognizedModel : Bool := (OPENAI_MODEL_DIMENSIONS.lookup embeddingModel).isSome
  let modelWarnings : List String :=
    if ¬ isRecognizedModel ∧ ¬ mockEmbeddings then [unrecognizedModelWarning embeddingModel]
    else []
  -- Determine embedding dimensions
  let embDimTriple : Int × String × List String :=
    if jsTruthyStr env.OPENAI_EMBEDDING_DIMENSIONS then
      match jsParseInt ((env.OPENAI_EMBEDDING_DIMENSIONS).getD "") with
      | some n => (n, "OPENAI_EMBEDDING_DIMENSIONS env var", [])
      | none =>
        ((getModelDimensions embeddingModel : Int),
         s!"fallback: inferred from model {embeddingModel}",
         [s!"Invalid OPENAI_EMBEDDING_DIMENSIONS: not a number"])
    else
      ((getModelDimensions embeddingModel : Int),
       s!"inferred from model {embeddingModel}", [])
  let embeddingDimensions := embDimTriple.1
  let dimensionsSource := embDimTriple.2.1
  let embDimErrors := embDimTriple.2.2
  -- Determine vector index dimensions
  let vecDimTriple : Int × String × List String :=
    if jsTruthyStr env.NEO4J_VECTOR_DIMENSIONS then
      match jsParseInt ((env.NEO4J_VECTOR_DIMENSIONS).getD "") with
      | some n => (n, "NEO4J_VECTOR_DIMENSIONS env var", [])
      | none =>
        (embeddingDimensions,
         s!"fallback: matching embedding dimensions",
         [s!"Invalid NEO4J_VECTOR_DIMENSIONS: not a number"])
    else
      (embeddingDimensions, s!"inferred from embedding config", [])
  let vectorIndexDimensions := vecDimTriple.1
  let vectorIndexSource := vecDimTriple.2.1
  let vecDimErrors := vecDimTriple.2.2
  -- Dimension match check
  let dimensionsMatch : Bool := embeddingDimensions = vectorIndexDimensions
  let mismatchErrors : List String :=
    if ¬ dimensionsMatch then
      ["Embedding dimensions mismatch! This will cause vector storage and search to fail."]
    else []
  -- API key warning
  let apiKeyWarnings : List String :=
    if ¬ apiKeyConfigured ∧ ¬ mockEmbeddings then
      ["No OPENAI_API_KEY configured. Embedding generation will use fallback/mock service."]
    else []
  -- Mock embeddings warning
  let mockWarnings : List String :=
    if mockEmbeddings then
      ["MOCK_EMBEDDINGS=true is set. Using mock embedding service (not suitable for production)."]
    else []
  -- Conflicting dimension knobs warning (NaN !== NaN is true in JS)
  let conflictWarnings : List String :=
    if jsTruthyStr env.OPENAI_EMBEDDING_DIMENSIONS ∧ jsTruthyStr env.NEO4J_VECTOR_DIMENSIONS then
      if ¬ jsNumEq (jsParseInt ((env.OPENAI_EMBEDDING_DIMENSIONS).getD ""))
            (jsParseInt ((env.NEO4J_VECTOR_DIMENSIONS).getD "")) then
        ["Both OPENAI_EMBEDDING_DIMENSIONS and NEO4J_VECTOR_DIMENSIONS are set with different values. This is likely unintentional."]
      else []
    else []
  let warnings := modelWarnings ++ apiKeyWarnings ++ mockWarnings ++ conflictWarnings
  let errors := embDimErrors ++ vecDimErrors ++ mismatchErrors
  { isValid := errors.isEmpty
    warnings := warnings
    errors := errors
    config :=
      { provider := if mockEmbeddings then "mock" else "openai"
        model := embeddingModel
        dimensions := embeddingDimensions
        dimensionsSource := dimensionsSource
        vectorIndexDimensions := vectorIndexDimensions
        vectorIndexSource := vectorIndexSource
        dimensionsMatch := dimensionsMatch
        apiKeyConfigured := apiKeyConfigured
        mockEmbeddings := mockEmbeddings } }

/-! ## src/storage/neo4j/Neo4jReindexManager.ts -/

/-- `ReindexOptions` (the `onProgress` callback and `customQueryParams` are
not modelled: no claim depends on them).  Absent optional fields are `none`;
the boolean flags default to `false` as JavaScript `undefined` is falsy. -/
structure ReindexOptions where
  batchSize : Option Nat := none
  entityTypes : Option (List String) := none
  namePattern : Option String := none
  onlyMissing : Bool := false
  force : Bool := false
  dryRun : Bool := false
  limit : Option Nat := none
  batchDelay : Option Nat := none
  customQuery : Option String := none

/-- The WHERE-clause condition list built by both `getEntitiesToReindex` and
`countEntitiesForReindex` (their condition-building code is identical). -/
def reindexConditions (options : ReindexOptions) : List String :=
  ["e.validTo = 9223372036854775807"]
  ++ (match options.entityTypes with
      | some ts => if ts.length > 0 then ["e.entityType IN $entityTypes"] else []
      | none => [])
  ++ (match options.namePattern with
      | some p => if p ≠ "" then ["e.name =~ $namePattern"] else []
      | none => [])
  ++ (if options.onlyMissing then ["e.embedding IS NULL"]
      else if options.force = false then ["e.embedding IS NULL"]
      else [])

/-- The Cypher text produced by `getEntitiesToReindex` (custom query branch
included; template whitespace collapsed). -/
def getEntitiesQuery (options : ReindexOptions) : String :=
  match options.customQuery with
  | some q => q
  | none =>
    let conditions := reindexConditions options
    let whereClause :=
      if conditions.length > 0 then "WHERE " ++ String.intercalate " AND " conditions else ""
    let limitClause :=
      match options.limit with
      | some l => if l ≠ 0 then s!"LIMIT {l}" else ""
      | none => ""
    "MATCH (e:Entity) " ++ whereClause ++
      " RETURN e.name as name, e.entityType as type, e.observations as observations" ++
      " ORDER BY e.createdAt DESC " ++ limitClause

/-- The Cypher text produced by `countEntitiesForReindex` (non-custom branch;
the custom branch wraps the custom query in a COUNT). -/
def countEntitiesQuery (options : ReindexOptions) : String :=
  match options.customQuery with
  | some q => "WITH (" ++ q ++ ") as subquery RETURN count(*) as count"
  | none =>
    let conditions := reindexConditions options
    let whereClause :=
      if conditions.length > 0 then "WHERE " ++ String.intercalate " AND " conditions else ""
    "MATCH (e:Entity) " ++ whereClause ++ " RETURN count(e) as count"

/-- An entity row returned by the selection query (`EntityBatch`). -/
structure EntityBatch where
  name : String
  type : String
  observations : List String
deriving DecidableEq

/-- `generateEmbeddingText`: deterministic embedding input text built from
name, type and observations. -/
def generateEmbeddingText (entity : EntityBatch) : String :=
  let parts := ["Entity: " ++ entity.name, "Type: " ++ entity.type]
  let parts :=
    if entity.observations.length > 0 then
      parts ++ ["Observations: " ++ String.intercalate "; " entity.observations]
    else parts
  String.intercalate "\n" parts

/-- Observable I/O effects of a reindex run: an embedding-generation call, an
attempted embedding store, or an inter-batch sleep. -/
inductive Effect where
  | genCall (text : String)
  | storeCall (entityName : String)
  | sleep (ms : Nat)
deriving DecidableEq

/-- Is the effect a sleep? -/
def isSleepEffect : Effect → Bool
  | .sleep _ => true
  | _ => false

/-- `ReindexResult` (the wall-clock `duration` field is not modelled). -/
structure ReindexResult where
  total : Nat
  processed : Nat
  succeeded : Nat
  failed : Nat
  skipped : Nat
  errors : List (String × String)
deriving DecidableEq

/-- Mutable loop state of `reindexEmbeddings`, plus the effect trace. -/
structure ReindexLoopState where
  processed : Nat
  succeeded : Nat
  failed : Nat
  skipped : Nat
  errors : List (String × String)
  trace : List Effect

/-- The per-entity body of the batch loop: generate the embedding text, call
the embedding service, store on success; a failure of either step increments
`failed` and appends `(entityName, errorMessage)`; `processed` always
increments.  `gen` and `store` are the awaited service/storage calls,
returning `Except` with the JavaScript error message. -/
def processEntity (gen : String → Except String (List ℚ))
    (store : String → List ℚ → Except String Unit)
    (st : ReindexLoopState) (entity : EntityBatch) : ReindexLoopState :=
  let text := generateEmbeddingText entity
  match gen text with
  | .error e =>
    { st with processed := st.processed + 1, failed := st.failed + 1,
              errors := st.errors ++ [(entity.name, e)],
              trace := st.trace ++ [.genCall text] }
  | .ok emb =>
    match store entity.name emb with
    | .error e =>
      { st with processed := st.processed + 1, failed := st.failed + 1,
                errors := st.errors ++ [(entity.name, e)],
                trace := st.trace ++ [.genCall text, .storeCall entity.name] }
    | .ok _ =>
      { st with processed := st.processed + 1, succeeded := st.succeeded + 1,
                trace := st.trace ++ [.genCall text, .storeCall entity.name] }

/-- Process one batch (entities within a batch are handled sequentially). -/
def processBatch (gen : String → Except String (List ℚ))
    (store : String → List ℚ → Except String Unit)
    (st : ReindexLoopState) (batch : List EntityBatch) : ReindexLoopState :=
  batch.foldl (processEntity gen store) st

/-- The batch loop of `reindexEmbeddings`: slice off `batchSize` entities,
process them, and sleep `batchDelay` when more entities remain
(`i + batchSize < entities.length`) and the delay is positive.  The `fuel`
argument makes the recursion structural so the kernel can evaluate the loop;
the loop is always entered with `fuel = entities.length`, which suffices
because each step removes at least one entity. -/
def reindexLoop (gen : String → Except String (List ℚ))
    (store : String → List ℚ → Except String Unit)
    (batchSize batchDelay : Nat) :
    Nat → List EntityBatch → ReindexLoopState → ReindexLoopState
  | _, [], st => st
  | 0, _ :: _, st => st
  | fuel + 1, e :: rest, st =>
    let batch := e :: rest.take (batchSize - 1)
    let remaining := rest.drop (batchSize - 1)
    let st1 := processBatch gen store st batch
    let st2 :=
      if remaining.length > 0 ∧ batchDelay > 0 then
        { st1 with trace := st1.trace ++ [.sleep batchDelay] }
      else st1
    reindexLoop gen store batchSize batchDelay fuel remaining st2

/-- `Neo4jReindexManager.reindexEmbeddings`.  The selection result of
`getEntitiesToReindex` is the `entities` parameter (its query text is embedded
separately as `getEntitiesQuery`); the effective batch size and delay use the
JavaScript `||` defaults 10 and 1000. -/
def reindexEmbeddings (gen : String → Except String (List ℚ))
    (store : String → List ℚ → Except String Unit)
    (entities : List EntityBatch) (options : ReindexOptions) :
    ReindexResult × List Effect :=
  let batchSize := jsOrNat options.batchSize 10
  let batchDelay := jsOrNat options.batchDelay 1000
  let total := entities.length
  if total = 0 then
    (⟨0, 0, 0, 0, 0, []⟩, [])
  else if options.dryRun then
    (⟨total, 0, 0, 0, 0, []⟩, [])
  else
    let final :=
      reindexLoop gen store batchSize batchDelay entities.length entities ⟨0, 0, 0, 0, [], []⟩
    (⟨total, final.processed, final.succeeded, final.failed, final.skipped, final.errors⟩,
     final.trace)

/-- Does the generate-or-store step fail for this entity? -/
def entityFails (gen : String → Except String (List ℚ))
    (store : String → List ℚ → Except String Unit) (e : EntityBatch) : Bool :=
  match gen (generateEmbeddingText e) with
  | .error _ => true
  | .ok emb =>
    match store e.name emb with
    | .error _ => true
    | .ok _ => false

/-- The error message recorded for a failing entity. -/
def entityError (gen : String → Except String (List ℚ))
    (store : String → List ℚ → Except String Unit) (e : EntityBatch) : String :=
  match gen (generateEmbeddingText e) with
  | .error m => m
  | .ok emb =>
    match store e.name emb with
    | .error m => m
    | .ok _ => ""

/-- The effects emitted while processing a single entity. -/
def entityTrace (gen : String → Except String (List ℚ)) (e : EntityBatch) : List Effect :=
  match gen (generateEmbeddingText e) with
  | .error _ => [.genCall (generateEmbeddingText e)]
  | .ok _ => [.genCall (generateEmbeddingText e), .storeCall e.name]

/-- The effects emitted while processing a whole batch in order. -/
def batchTrace (gen : String → Except String (List ℚ)) : List EntityBatch → List Effect
  | [] => []
  | e :: rest => entityTrace gen e ++ batchTrace gen rest

/-- `Math.ceil(total / batchSize)` on naturals. -/
def ceilDiv (n b : Nat) : Nat := (n + b - 1) / b

/-! ## src/embeddings/VoyageAIEmbeddingService.ts -/

/-- `VoyageAIEmbeddingConfig` (the `apiKey` is irrelevant to the claims). -/
structure VoyageAIEmbeddingConfig where
  model : Option String := none
  dimensions : Option Nat := none
  version : Option String := none
  inputType : Option String := none

/-- The environment variables read by the Voyage service constructor. -/
structure VoyageEnv where
  VOYAGE_EMBEDDING_MODEL : Option String := none

/-- Resolved fields of a constructed `VoyageAIEmbeddingService`. -/
structure VoyageAIEmbeddingService where
  model : String
  dimensions : Nat
  version : String
  inputType : String

/-- The constructor's field resolution: `config.model || env || 'voyage-3-large'`,
`config.dimensions || getModelDimensions(model)`, etc. -/
def voyageInit (config : VoyageAIEmbeddingConfig) (env : VoyageEnv) :
    VoyageAIEmbeddingService :=
  let model := jsOrStr config.model (jsOrStr env.VOYAGE_EMBEDDING_MODEL "voyage-3-large")
  { model := model
    dimensions := jsOrNat config.dimensions (getModelDimensions model)
    version := jsOrStr config.version "3.0.0"
    inputType := jsOrStr config.inputType "document" }

/-- The request object sent to the Voyage `embed` endpoint. -/
structure EmbedParams where
  input : List String
  model : String
  inputType : Option String
  outputDimension : Option Nat
deriving DecidableEq

/-- The `embedParams` construction shared verbatim by `generateEmbedding` and
`generateEmbeddings`: `outputDimension` is attached only when the model name
starts with `voyage-3` and `this.dimensions` is truthy. -/
def voyageBuildEmbedParams (svc : VoyageAIEmbeddingService) (input : List String) :
    EmbedParams :=
  { input := input
    model := svc.model
    inputType := if svc.inputType ≠ "" then some svc.inputType else none
    outputDimension :=
      if jsStartsWith svc.model "voyage-3" ∧ svc.dimensions ≠ 0 then some svc.dimensions
      else none }

/-- The embed request built by `generateEmbedding` (single text). -/
def voyageGenerateEmbeddingParams (svc : VoyageAIEmbeddingService) (text : String) :
    EmbedParams :=
  voyageBuildEmbedParams svc [text]

/-- The embed request built by `generateEmbeddings` (batch). -/
def voyageGenerateEmbeddingsParams (svc : VoyageAIEmbeddingService)
    (texts : List String) : EmbedParams :=
  voyageBuildEmbedParams svc texts

/-- `EmbeddingModelInfo` returned by `getModelInfo`. -/
structure EmbeddingModelInfo where
  name : String
  dimensions : Nat
  version : String
deriving DecidableEq

/-- `VoyageAIEmbeddingService.getModelInfo`. -/
def voyageGetModelInfo (svc : VoyageAIEmbeddingService) : EmbeddingModelInfo :=
  ⟨svc.model, svc.dimensions, svc.version⟩

/-! ## Error surfacing (VoyageAIEmbeddingService / CohereRerankingService)

Both catch blocks classify the caught error by substring matching on its
message and re-throw a plain JavaScript `new Error(message)`.  A surfaced
error therefore carries only the constructor name `"Error"` (its kind) and a
message string. -/

/-- A JavaScript error value as surfaced to the caller: its constructor name
(`Error.prototype.name`) and its message. -/
structure SurfacedError where
  name : String
  message : String
deriving DecidableEq

/-- `new Error(msg)`: the constructor name is always `"Error"`. -/
def jsNewError (msg : String) : SurfacedError := ⟨"Error", msg⟩

/-- The message chosen by the catch block of
`VoyageAIEmbeddingService.generateEmbedding`. -/
def voyageCatchMessage (errorMessage : String) : String :=
  if jsIncludes errorMessage "401" ∨ jsIncludes errorMessage "authentication" then
    "Voyage AI API authentication failed - invalid API key"
  else if jsIncludes errorMessage "429" ∨ jsIncludes errorMessage "rate limit" then
    "Voyage AI API rate limit exceeded - try again later"
  else if jsIncludes errorMessage "500" ∨ jsIncludes errorMessage "503" then
    "Voyage AI API server error - try again later"
  else
    s!"Error generating embedding: {errorMessage}"

/-- The error surfaced by `VoyageAIEmbeddingService.generateEmbedding` when
the underlying call fails with `errorMessage`. -/
def voyageGenerateEmbeddingCatch (errorMessage : String) : SurfacedError :=
  jsNewError (voyageCatchMessage errorMessage)

/-- The message chosen by the catch block of `CohereRerankingService.rerank`. -/
def cohereCatchMessage (errorMessage : String) : String :=
  if jsIncludes errorMessage "401" ∨ jsIncludes errorMessage "authentication" then
    "Cohere API authentication failed - invalid API key"
  else if jsIncludes errorMessage "429" ∨ jsIncludes errorMessage "rate limit" then
    "Cohere API rate limit exceeded - try again later"
  else if jsIncludes errorMessage "500" ∨ jsIncludes errorMessage "503" then
    "Cohere API server error - try again later"
  else
    s!"Error reranking documents: {errorMessage}"

/-- The error surfaced by `CohereRerankingService.rerank` when the underlying
call fails with `errorMessage`. -/
def cohereRerankCatch (errorMessage : String) : SurfacedError :=
  jsNewError (cohereCatchMessage errorMessage)

/-! ## src/embeddings/CohereRerankingService.ts (result mapping) -/

/-- A JavaScript metadata field value (the fields relevant here are numbers
and strings; `undef` models `undefined`). -/
inductive MetaVal where
  | num (q : ℚ)
  | str (s : String)
  | undef
deriving DecidableEq

/-- A JavaScript metadata object, as a field lookup function. -/
def Metadata : Type := String → Option MetaVal

/-- Object spread override `\x7b...m, k: v\x7d`: field `k` now maps to `v`,
every other field is unchanged. -/
def metaSet (m : Metadata) (k : String) (v : MetaVal) : Metadata :=
  fun q => if q = k then some v else m q

/-- `VectorSearchResult` (the fields used by the reranking adapter). -/
structure VectorSearchResult where
  id : String
  similarity : ℚ
  metadata : Metadata

/-- `RerankDocument`. -/
structure RerankDocument where
  id : String
  text : String
  metadata : Metadata

/-- `RerankResult`.  `score` is `originalDoc.metadata?.originalScore`, which
at runtime is whatever value that field holds (possibly absent). -/
structure RerankResult where
  id : String
  score : Option MetaVal
  relevanceScore : ℚ
  metadata : Metadata

/-- One entry of the Cohere rerank API response. -/
structure CohereApiResult where
  index : Nat
  relevanceScore : ℚ

/-- The result object built for one API response entry from its original
document. -/
def mkRerankResult (originalDoc : RerankDocument) (r : CohereApiResult) : RerankResult :=
  { id := originalDoc.id
    score := originalDoc.metadata "originalScore"
    relevanceScore := r.relevanceScore
    metadata :=
      metaSet (metaSet originalDoc.metadata "rerankScore" (.num r.relevanceScore))
        "rerankIndex" (.num r.index) }

/-- The mapping of API response entries back onto documents
(`response.results.map(...)`).  `documents[result.index]` on an out-of-range
index is `undefined` in JavaScript and crashes on field access; that case is
`none`. -/
def cohereMapResults (documents : List RerankDocument) :
    List CohereApiResult → Option (List RerankResult)
  | [] => some []
  | r :: rest =>
    match documents.get? r.index with
    | none => none
    | some originalDoc =>
      match cohereMapResults documents rest with
      | none => none
      | some tail => some (mkRerankResult originalDoc r :: tail)

/-- `CohereRerankingService.rerank`, parametrized by the API response
(`apiResults`); empty input returns `[]` without an API call. -/
def cohereRerank (documents : List RerankDocument)
    (apiResults : List CohereApiResult) : Option (List RerankResult) :=
  if documents.length = 0 then some []
  else cohereMapResults documents apiResults

/-- The final `VectorSearchResult` built from one rerank result: the new
similarity is the relevance score; the metadata records the original
similarity and `searchMethod: 'vector+rerank'`. -/
def rerankResultToVector (result : RerankResult) : VectorSearchResult :=
  { id := result.id
    similarity := result.relevanceScore
    metadata :=
      metaSet (metaSet result.metadata "originalSimilarity" ((result.score).getD .undef))
        "searchMethod" (.str "vector+rerank") }

/-- The rerank document built from one vector search result. -/
def vectorResultToDocument (entityTexts : List (String × String))
    (result : VectorSearchResult) : RerankDocument :=
  { id := result.id
    text := (entityTexts.lookup result.id).getD result.id
    metadata := metaSet result.metadata "originalScore" (.num result.similarity) }

/-- `CohereRerankingService.rerankVectorSearchResults`, parametrized by the
Cohere API response. -/
def rerankVectorSearchResults (results : List VectorSearchResult)
    (entityTexts : List (String × String)) (apiResults : List CohereApiResult) :
    Option (List VectorSearchResult) :=
  if results.length = 0 then some []
  else
    let documents := results.map (vectorResultToDocument entityTexts)
    (cohereRerank documents apiResults).map (fun rr => rr.map rerankResultToVector)

/-! ## Neo4jVectorStore.hybridSearchWithRRF — steps 3 and 4 (RRF fusion)

Embedded from the `Neo4jVectorStore` segment of `src/usage-analysis.cypher`.
The two sub-query result lists (vector search, keyword search) are the
inputs; the fusion builds the `rrfScores` JavaScript `Map` — insertion
ordered — in two `forEach` passes, then sorts its entries by fused score
descending with JavaScript's stable `Array.prototype.sort` and truncates to
`limit`. -/

/-- One record of the vector sub-query: `{id, entityType, vectorScore}`. -/
structure VectorRecord where
  id : String
  entityType : String
  vectorScore : ℚ

/-- One record of the keyword sub-query: `{id, entityType, bm25Score}`. -/
structure KeywordRecord where
  id : String
  entityType : String
  bm25Score : ℚ

/-- A value of the `rrfScores` map:
`{score, entityType, vectorScore?, bm25Score?}`. -/
structure RRFEntry where
  score : ℚ
  entityType : String
  vectorScore : Option ℚ
  bm25Score : Option ℚ

/-- JavaScript `Map.set` on an insertion-ordered association list: a present
key has its value replaced in place (the key keeps its insertion position), an
absent key is appended at the end. -/
def jsMapSet (m : List (String × RRFEntry)) (k : String) (v : RRFEntry) :
    List (String × RRFEntry) :=
  if (m.lookup k).isSome then m.map (fun p => if p.1 = k then (k, v) else p)
  else m ++ [(k, v)]

/-- The vector-results `forEach` pass: for the record at 0-based `index`,
`rrfScores.set(id, {score: 1 / (rrfK + index + 1), entityType, vectorScore})`
— an id already present is overwritten, not summed. -/
def rrfVectorPass (rrfK : ℚ) :
    Nat → List VectorRecord → List (String × RRFEntry) → List (String × RRFEntry)
  | _, [], m => m
  | index, r :: rest, m =>
    rrfVectorPass rrfK (index + 1) rest
      (jsMapSet m r.id ⟨1 / (rrfK + index + 1), r.entityType, some r.vectorScore, none⟩)

/-- The keyword-results `forEach` pass: an id already in the map gets the
contribution added to its existing score (keeping its `vectorScore`), a new id
gets a fresh entry. -/
def rrfKeywordPass (rrfK : ℚ) :
    Nat → List KeywordRecord → List (String × RRFEntry) → List (String × RRFEntry)
  | _, [], m => m
  | index, r :: rest, m =>
    let m2 :=
      match m.lookup r.id with
      | some existing =>
        jsMapSet m r.id
          ⟨existing.score + 1 / (rrfK + index + 1), r.entityType,
            existing.vectorScore, some r.bm25Score⟩
      | none =>
        jsMapSet m r.id ⟨1 / (rrfK + index + 1), r.entityType, none, some r.bm25Score⟩
    rrfKeywordPass rrfK (index + 1) rest m2

/-- The `rrfScores` map after both passes (step 3 of `hybridSearchWithRRF`). -/
def rrfScoresMap (rrfK : ℚ) (V : List VectorRecord) (K : List KeywordRecord) :
    List (String × RRFEntry) :=
  rrfKeywordPass rrfK 0 K (rrfVectorPass rrfK 0 V [])

/-- The fused RRF score of an entity: the `score` of its `rrfScores` entry,
0 when the entity is in neither result list. -/
def rrfFusedScore (rrfK : ℚ) (V : List VectorRecord) (K : List KeywordRecord)
    (e : String) : ℚ :=
  match (rrfScoresMap rrfK V K).lookup e with
  | some entry => entry.score
  | none => 0

/-- The metadata object built for one fused result in step 4. -/
def rrfResultMetadata (entry : RRFEntry) : Metadata := fun q =>
  if q = "entityType" then some (.str entry.entityType)
  else if q = "searchMethod" then some (.str "hybrid-rrf")
  else if q = "vectorScore" then some ((entry.vectorScore).elim .undef .num)
  else if q = "bm25Score" then some ((entry.bm25Score).elim .undef .num)
  else if q = "rrfScore" then some (.num entry.score)
  else none

/-- Step 4 of `hybridSearchWithRRF`: sort the map entries by RRF score
descending (`(a, b) => b[1].score - a[1].score` under JavaScript's stable
sort, modelled by the stable `mergeSort`), truncate to `limit`, and build the
`VectorSearchResult`s. -/
def hybridSearchWithRRF (rrfK : ℚ) (limit : Nat) (V : List VectorRecord)
    (K : List KeywordRecord) : List VectorSearchResult :=
  (((rrfScoresMap rrfK V K).mergeSort
      (fun a b => decide (b.2.score ≤ a.2.score))).take limit).map
    (fun p => { id := p.1, similarity := p.2.score, metadata := rrfResultMetadata p.2 })

/-! ## Concrete fixtures used by witnesses and counterexamples -/

/-- An environment with no index-dimension override. -/
def envInherit : Env :=
  { OPENAI_API_KEY := some "sk-test", OPENAI_EMBEDDING_MODEL := some "text-embedding-3-large" }

/-- An environment with an explicit numeric index-dimension override. -/
def envOverride : Env :=
  { OPENAI_API_KEY := some "sk-test", NEO4J_VECTOR_DIMENSIONS := some "2048" }

/-- An environment declaring a model unknown to the OpenAI table. -/
def envUnknownModel : Env :=
  { OPENAI_API_KEY := some "sk-test", OPENAI_EMBEDDING_MODEL := some "my-custom-model" }

/-- An embedding call that always succeeds. -/
def genOk : String → Except String (List ℚ) := fun _ => .ok [1]

/-- A storage call that always succeeds. -/
def storeOk : String → List ℚ → Except String Unit := fun _ _ => .ok ()

/-- An embedding call that always fails with an empty message. -/
def genEmptyMsgFail : String → Except String (List ℚ) := fun _ => .error ""

/-- A small entity. -/
def entA : EntityBatch := ⟨"A", "T", []⟩

/-- Another small entity. -/
def entB : EntityBatch := ⟨"B", "T", []⟩

/-- A third small entity. -/
def entC : EntityBatch := ⟨"C", "T", []⟩

/-- Ten entities named E0..E9. -/
def ents10 : List EntityBatch :=
  [⟨"E0", "T", []⟩, ⟨"E1", "T", []⟩, ⟨"E2", "T", []⟩, ⟨"E3", "T", []⟩,
   ⟨"E4", "T", []⟩, ⟨"E5", "T", []⟩, ⟨"E6", "T", []⟩, ⟨"E7", "T", []⟩,
   ⟨"E8", "T", []⟩, ⟨"E9", "T", []⟩]

/-- An embedding call injected to fail exactly for entity E5. -/
def genFailE5 : String → Except String (List ℚ) := fun text =>
  if text = generateEmbeddingText ⟨"E5", "T", []⟩ then .error "Injected failure"
  else .ok [1]

/-- Default options (non-dry-run). -/
def optsPlain : ReindexOptions := {}

/-- Dry-run options. -/
def optsDry : ReindexOptions := { dryRun := true }

/-- Options with batch size 1 and a configured inter-batch delay of 0. -/
def optsDelayZero : ReindexOptions := { batchSize := some 1, batchDelay := some 0 }

/-- Options with batch size 2 and a configured inter-batch delay of 5. -/
def optsDelayFive : ReindexOptions := { batchSize := some 2, batchDelay := some 5 }

/-- A metadata object with no fields. -/
def emptyMeta : Metadata := fun _ => none

/-- One vector search result for the rerank witness. -/
def vsrW : VectorSearchResult := ⟨"e1", 1 / 2, emptyMeta⟩

/-- The rerank witness input list. -/
def resultsW : List VectorSearchResult := [vsrW]

/-- Entity texts for the rerank witness. -/
def textsW : List (String × String) := [("e1", "entity one text")]

/-- Cohere API response for the rerank witness. -/
def apiW : List CohereApiResult := [⟨0, 9 / 10⟩]

/-- Vector sub-query results for the RRF witness. -/
def rrfVW : List VectorRecord := [⟨"a", "T", 9 / 10⟩, ⟨"b", "T", 8 / 10⟩]

/-- Keyword sub-query results for the RRF witness. -/
def rrfKW : List KeywordRecord := [⟨"b", "T", 3⟩, ⟨"c", "T", 2⟩]

/-- A Voyage config with an explicit dimension override on a non-voyage-3
model. -/
def cfgW : VoyageAIEmbeddingConfig := { model := some "voyage-code-2", dimensions := some 999 }

/-- An empty Voyage environment. -/
def venvW : VoyageEnv := {}

/-! # Theorems -/

/-! ## Batch-engine helper lemmas -/

/-- Field-level description of one `processEntity` step. -/
theorem processEntity_fields (g : String → Except String (List ℚ))
    (s : String → List ℚ → Except String Unit) (st : ReindexLoopState) (e : EntityBatch) :
    (processEntity g s st e).processed = st.processed + 1
    ∧ (processEntity g s st e).succeeded
        = st.succeeded + (if entityFails g s e then 0 else 1)
    ∧ (processEntity g s st e).failed = st.failed + (if entityFails g s e then 1 else 0)
    ∧ (processEntity g s st e).skipped = st.skipped
    ∧ (processEntity g s st e).errors
        = st.errors ++ (if entityFails g s e then [(e.name, entityError g s e)] else [])
    ∧ (processEntity g s st e).trace = st.trace ++ entityTrace g e := by
  cases hg : g (generateEmbeddingText e) with
  | error m => simp [processEntity, entityFails, entityError, entityTrace, hg]
  | ok emb =>
    cases hs : s e.name emb with
    | error m => simp [processEntity, entityFails, entityError, entityTrace, hg, hs]
    | ok u => simp [processEntity, entityFails, entityError, entityTrace, hg, hs]

/-- Field-level description of one processed batch. -/
theorem processBatch_fields (g : String → Except String (List ℚ))
    (s : String → List ℚ → Except String Unit) (batch : List EntityBatch) :
    ∀ st : ReindexLoopState,
    (processBatch g s st batch).processed = st.processed + batch.length
    ∧ (processBatch g s st batch).succeeded
        = st.succeeded + (batch.filter (fun e => ! entityFails g s e)).length
    ∧ (processBatch g s st batch).failed = st.failed + (batch.filter (entityFails g s)).length
    ∧ (processBatch g s st batch).skipped = st.skipped
    ∧ (processBatch g s st batch).errors
        = st.errors ++ (batch.filter (entityFails g s)).map (fun e => (e.name, entityError g s e))
    ∧ (processBatch g s st batch).trace = st.trace ++ batchTrace g batch := by
  induction batch with
  | nil => intro st; simp [processBatch, batchTrace]
  | cons e rest ih =>
    intro st
    obtain ⟨p1, p2, p3, p4, p5, p6⟩ := processEntity_fields g s st e
    obtain ⟨q1, q2, q3, q4, q5, q6⟩ := ih (processEntity g s st e)
    have hfold : processBatch g s st (e :: rest) = processBatch g s (processEntity g s st e) rest := rfl
    rw [hfold]
    refine ⟨?_, ?_, ?_, ?_, ?_, ?_⟩
    · rw [q1, p1]; simp; omega
    · rw [q2, p2]; cases hf : entityFails g s e <;> simp [List.filter_cons, hf] <;> try omega
    · rw [q3, p3]; cases hf : entityFails g s e <;> simp [List.filter_cons, hf] <;> try omega
    · rw [q4, p4]
    · rw [q5, p5]; cases hf : entityFails g s e <;> simp [List.filter_cons, hf]
    · rw [q6, p6]; simp [batchTrace]

/-- Count/error bookkeeping of the whole batch loop. -/
theorem reindexLoop_counts (g : String → Except String (List ℚ))
    (s : String → List ℚ → Except String Unit) (bs bd : Nat) :
    ∀ (fuel : Nat) (es : List EntityBatch), es.length ≤ fuel → ∀ st : ReindexLoopState,
    (reindexLoop g s bs bd fuel es st).processed = st.processed + es.length
    ∧ (reindexLoop g s bs bd fuel es st).succeeded
        = st.succeeded + (es.filter (fun e => ! entityFails g s e)).length
    ∧ (reindexLoop g s bs bd fuel es st).failed
        = st.failed + (es.filter (entityFails g s)).length
    ∧ (reindexLoop g s bs bd fuel es st).skipped = st.skipped
    ∧ (reindexLoop g s bs bd fuel es st).errors
        = st.errors ++ (es.filter (entityFails g s)).map (fun e => (e.name, entityError g s e)) := by
  intro fuel
  induction fuel with
  | zero =>
    intro es hes st
    have : es = [] := List.length_eq_zero.mp (Nat.le_zero.mp hes)
    subst this
    simp [reindexLoop]
  | succ fuel ih =>
    intro es hes st
    cases es with
    | nil => simp [reindexLoop]
    | cons e rest =>
      have key : (e :: rest.take (bs - 1)) ++ rest.drop (bs - 1) = e :: rest := by
        simp [List.take_append_drop]
      have hrem : (rest.drop (bs - 1)).length ≤ fuel := by
        simp only [List.length_drop]
        simp at hes
        omega
      simp only [reindexLoop]
      obtain ⟨b1, b2, b3, b4, b5, b6⟩ := processBatch_fields g s (e :: rest.take (bs - 1)) st
      by_cases hc : (rest.drop (bs - 1)).length > 0 ∧ bd > 0
      · rw [if_pos hc]
        obtain ⟨r1, r2, r3, r4, r5⟩ :=
          ih (rest.drop (bs - 1)) hrem
            { processBatch g s st (e :: rest.take (bs - 1)) with
              trace := (processBatch g s st (e :: rest.take (bs - 1))).trace ++ [.sleep bd] }
        refine ⟨?_, ?_, ?_, ?_, ?_⟩
        · rw [r1]; simp only; rw [b1, ← key]; simp; omega
        · rw [r2]; simp only; rw [b2, ← key, List.filter_append, List.length_append]; omega
        · rw [r3]; simp only; rw [b3, ← key, List.filter_append, List.length_append]; omega
        · rw [r4]; simp only; rw [b4]
        · rw [r5]; simp only; rw [b5, ← key, List.filter_append, List.map_append,
            List.append_assoc]
      · rw [if_neg hc]
        obtain ⟨r1, r2, r3, r4, r5⟩ :=
          ih (rest.drop (bs - 1)) hrem (processBatch g s st (e :: rest.take (bs - 1)))
        refine ⟨?_, ?_, ?_, ?_, ?_⟩
        · rw [r1, b1, ← key]; simp; omega
        · rw [r2, b2, ← key, List.filter_append, List.length_append]; omega
        · rw [r3, b3, ← key, List.filter_append, List.length_append]; omega
        · rw [r4, b4]
        · rw [r5, b5, ← key, List.filter_append, List.map_append, List.append_assoc]

/-- A single entity emits no sleep effect. -/
theorem entityTrace_no_sleep (g : String → Except String (List ℚ)) (e : EntityBatch) :
    (entityTrace g e).filter isSleepEffect = [] := by
  unfold entityTrace
  cases g (generateEmbeddingText e) <;> simp [isSleepEffect]

/-- A single entity's trace ends in a non-sleep effect. -/
theorem entityTrace_last (g : String → Except String (List ℚ)) (e : EntityBatch) :
    ∃ eff, (entityTrace g e).getLast? = some eff ∧ isSleepEffect eff = false := by
  unfold entityTrace
  cases g (generateEmbeddingText e) with
  | error m => exact ⟨.genCall (generateEmbeddingText e), rfl, rfl⟩
  | ok v => exact ⟨.storeCall e.name, rfl, rfl⟩

/-- A batch emits no sleep effect. -/
theorem batchTrace_no_sleep (g : String → Except String (List ℚ)) :
    ∀ batch : List EntityBatch, (batchTrace g batch).filter isSleepEffect = [] := by
  intro batch
  induction batch with
  | nil => simp [batchTrace]
  | cons e rest ih => simp [batchTrace, List.filter_append, ih, entityTrace_no_sleep]

/-- A non-empty batch's trace ends in a non-sleep effect. -/
theorem batchTrace_last (g : String → Except String (List ℚ)) :
    ∀ batch : List EntityBatch, batch ≠ [] →
    ∃ eff, (batchTrace g batch).getLast? = some eff ∧ isSleepEffect eff = false := by
  intro batch
  induction batch with
  | nil => intro h; exact absurd rfl h
  | cons e rest ih =>
    intro _
    by_cases hr : rest = []
    · subst hr
      simpa [batchTrace] using entityTrace_last g e
    · obtain ⟨eff, h1, h2⟩ := ih hr
      have hne : batchTrace g rest ≠ [] := by
        intro hnil
        rw [hnil] at h1
        simp at h1
      refine ⟨eff, ?_, h2⟩
      rw [show batchTrace g (e :: rest) = entityTrace g e ++ batchTrace g rest from rfl,
        List.getLast?_append_of_ne_nil _ hne]
      exact h1

/-- `ceilDiv` is 1 for a positive count within one batch. -/
theorem ceilDiv_of_le (n bs : Nat) (h1 : 1 ≤ n) (h2 : n ≤ bs) : ceilDiv n bs = 1 := by
  unfold ceilDiv
  refine Nat.div_eq_of_lt_le ?_ ?_ <;> omega

/-- `ceilDiv` is positive for a positive count. -/
theorem ceilDiv_pos (n bs : Nat) (h1 : 1 ≤ n) (hbs : 0 < bs) : 1 ≤ ceilDiv n bs := by
  unfold ceilDiv
  rw [Nat.le_div_iff_mul_le hbs]
  omega

/-- Peeling one full batch off `ceilDiv`. -/
theorem ceilDiv_chunk (n bs : Nat) (hbs : 0 < bs) (h : bs < n) :
    ceilDiv n bs = ceilDiv (n - bs) bs + 1 := by
  unfold ceilDiv
  have h3 : n + bs - 1 = (n - bs + bs - 1) + bs := by omega
  rw [h3, Nat.add_div_right _ hbs]

/-- The sleep effects of the batch loop: exactly one `sleep bd` between
consecutive batches, i.e. `⌈n / bs⌉ - 1` sleeps in total. -/
theorem reindexLoop_sleeps (g : String → Except String (List ℚ))
    (s : String → List ℚ → Except String Unit) (bs bd : Nat)
    (hbs : 0 < bs) (hbd : 0 < bd) :
    ∀ (fuel : Nat) (es : List EntityBatch), es.length ≤ fuel → ∀ st : ReindexLoopState,
    ((reindexLoop g s bs bd fuel es st).trace).filter isSleepEffect
      = st.trace.filter isSleepEffect
        ++ List.replicate (ceilDiv es.length bs - 1) (Effect.sleep bd) := by
  intro fuel
  induction fuel with
  | zero =>
    intro es hes st
    have : es = [] := List.length_eq_zero.mp (Nat.le_zero.mp hes)
    subst this
    have : ceilDiv 0 bs = 0 := by
      unfold ceilDiv
      exact Nat.div_eq_of_lt (by omega)
    simp [reindexLoop, this]
  | succ fuel ih =>
    intro es hes st
    cases es with
    | nil =>
      have : ceilDiv 0 bs = 0 := by
        unfold ceilDiv
        exact Nat.div_eq_of_lt (by omega)
      simp [reindexLoop, this]
    | cons e rest =>
      have hrem : (rest.drop (bs - 1)).length ≤ fuel := by
        simp only [List.length_drop]
        simp at hes
        omega
      have hremlen : (rest.drop (bs - 1)).length = (e :: rest).length - bs := by
        simp [List.length_drop]
        omega
      have htr := (processBatch_fields g s (e :: rest.take (bs - 1)) st).2.2.2.2.2
      simp only [reindexLoop]
      by_cases hc : (rest.drop (bs - 1)).length > 0 ∧ bd > 0
      · rw [if_pos hc]
        rw [ih (rest.drop (bs - 1)) hrem]
        simp only
        rw [List.filter_append, htr, List.filter_append, batchTrace_no_sleep]
        have hsleep : List.filter isSleepEffect [Effect.sleep bd] = [Effect.sleep bd] := by
          simp [isSleepEffect]
        rw [hsleep]
        have hgt : bs < (e :: rest).length := by
          rcases hc with ⟨hc1, _⟩
          rw [hremlen] at hc1
          simp at hc1 ⊢
          omega
        have hchunk := ceilDiv_chunk (e :: rest).length bs hbs hgt
        have hpos : 1 ≤ ceilDiv ((e :: rest).length - bs) bs := by
          refine ceilDiv_pos _ _ ?_ hbs
          rw [← hremlen]
          exact hc.1
        rw [hremlen, hchunk]
        have : ceilDiv ((e :: rest).length - bs) bs + 1 - 1
            = (ceilDiv ((e :: rest).length - bs) bs - 1) + 1 := by omega
        rw [this, List.replicate_succ]
        simp
      · rw [if_neg hc]
        have hrem0 : (rest.drop (bs - 1)).length = 0 := by
          rcases Nat.eq_zero_or_pos (rest.drop (bs - 1)).length with h | h
          · exact h
          · exact absurd ⟨h, hbd⟩ hc
        have hdone : rest.drop (bs - 1) = [] := List.length_eq_zero.mp hrem0
        rw [hdone]
        have hloop : reindexLoop g s bs bd fuel [] (processBatch g s st (e :: rest.take (bs - 1)))
            = processBatch g s st (e :: rest.take (bs - 1)) := by
          cases fuel <;> rfl
        rw [hloop, htr, List.filter_append, batchTrace_no_sleep]
        have hle : (e :: rest).length ≤ bs := by
          rw [hremlen] at hrem0
          simp at hrem0 ⊢
          omega
        have : ceilDiv (e :: rest).length bs = 1 := ceilDiv_of_le _ _ (by simp) hle
        rw [this]
        simp

/-- The trace of the batch loop on a non-empty entity list ends in a
non-sleep effect: there is no sleep after the final batch. -/
theorem reindexLoop_last (g : String → Except String (List ℚ))
    (s : String → List ℚ → Except String Unit) (bs bd : Nat) :
    ∀ (fuel : Nat) (es : List EntityBatch), es.length ≤ fuel → es ≠ [] →
    ∀ st : ReindexLoopState,
    ∃ eff, (reindexLoop g s bs bd fuel es st).trace.getLast? = some eff
      ∧ isSleepEffect eff = false := by
  intro fuel
  induction fuel with
  | zero =>
    intro es hes hne st
    have : es = [] := List.length_eq_zero.mp (Nat.le_zero.mp hes)
    exact absurd this hne
  | succ fuel ih =>
    intro es hes hne st
    cases es with
    | nil => exact absurd rfl hne
    | cons e rest =>
      have hrem : (rest.drop (bs - 1)).length ≤ fuel := by
        simp only [List.length_drop]
        simp at hes
        omega
      have htr := (processBatch_fields g s (e :: rest.take (bs - 1)) st).2.2.2.2.2
      simp only [reindexLoop]
      by_cases hc : (rest.drop (bs - 1)).length > 0 ∧ bd > 0
      · rw [if_pos hc]
        have hne2 : rest.drop (bs - 1) ≠ [] := by
          intro hnil
          rw [hnil] at hc
          simp at hc
        exact ih (rest.drop (bs - 1)) hrem hne2 _
      · rw [if_neg hc]
        by_cases hd : rest.drop (bs - 1) = []
        · rw [hd]
          have hloop : reindexLoop g s bs bd fuel []
              (processBatch g s st (e :: rest.take (bs - 1)))
              = processBatch g s st (e :: rest.take (bs - 1)) := by
            cases fuel <;> rfl
          rw [hloop]
          obtain ⟨eff, h1, h2⟩ := batchTrace_last g (e :: rest.take (bs - 1)) (by simp)
          have hbne : batchTrace g (e :: rest.take (bs - 1)) ≠ [] := by
            intro hnil
            rw [hnil] at h1
            simp at h1
          refine ⟨eff, ?_, h2⟩
          rw [htr, List.getLast?_append_of_ne_nil _ hbne]
          exact h1
        · exact ih (rest.drop (bs - 1)) hrem hd _

/-- C1: In `EmbeddingConfigValidator.validate`, for every environment: if the
`NEO4J_VECTOR_DIMENSIONS` override is absent, the resolved vector index
dimension equals the resolved embedding dimension (never a hardcoded
default); if the override is present and parses as a number, the resolved
index dimension equals that override. -/
theorem c1_index_dimension_resolution (env : Env) :
    (env.NEO4J_VECTOR_DIMENSIONS = none →
      (validate env).config.vectorIndexDimensions = (validate env).config.dimensions)
    ∧ (∀ s n, env.NEO4J_VECTOR_DIMENSIONS = some s → s ≠ "" → jsParseInt s = some n →
      (validate env).config.vectorIndexDimensions = n) := by
  constructor
  · intro h
    simp [validate, h, jsTruthyStr]
  · intro s n hs hne hp
    simp [validate, hs, jsTruthyStr, hne, hp]

/-- C1 witness: with no override the index dimension inherits the embedding
dimension (3072 for `text-embedding-3-large`); with override `"2048"` it is
2048. -/
theorem c1_witness :
    (validate envInherit).config.vectorIndexDimensions = (validate envInherit).config.dimensions
    ∧ (validate envOverride).config.vectorIndexDimensions = 2048 := by
  refine ⟨(c1_index_dimension_resolution envInherit).1 rfl, ?_⟩
  have h := (c1_index_dimension_resolution envOverride).2 "2048" 2048 rfl (by decide) (by decide)
  exact h

/-- C7 counterexample: the model `"voyage-custom-x"` is in neither static
table, yet `getModelDimensions` returns 1024, not the claimed documented
default 1536. -/
theorem c7_counterexample_unknown_voyage_model :
    OPENAI_MODEL_DIMENSIONS.lookup "voyage-custom-x" = none
    ∧ VOYAGE_MODEL_DIMENSIONS.lookup "voyage-custom-x" = none
    ∧ getModelDimensions "voyage-custom-x" = 1024
    ∧ getModelDimensions "voyage-custom-x" ≠ 1536 := by
  exact ⟨by decide, by decide, by decide, by decide⟩

/-- C7 (amended): dimension resolution never fails for unknown models —
`getModelDimensions` returns 1536 for unknown models not starting with
`voyage-` and 1024 for unknown models starting with `voyage-`; and
`EmbeddingConfigValidator.validate` records a warning, not an error, for a
model outside the OpenAI table (when mock embeddings are disabled). -/
theorem c7_unknown_model_defaults (m : String) (env : Env) :
    (jsStartsWith m "voyage-" = false → OPENAI_MODEL_DIMENSIONS.lookup m = none →
      getModelDimensions m = 1536)
    ∧ (jsStartsWith m "voyage-" = true → VOYAGE_MODEL_DIMENSIONS.lookup m = none →
      getModelDimensions m = 1024)
    ∧ (env.OPENAI_EMBEDDING_MODEL = some m → m ≠ "" →
       OPENAI_MODEL_DIMENSIONS.lookup m = none →
       env.MOCK_EMBEDDINGS ≠ some "true" →
       unrecognizedModelWarning m ∈ (validate env).warnings
       ∧ (env.OPENAI_EMBEDDING_DIMENSIONS = none → env.NEO4J_VECTOR_DIMENSIONS = none →
          (validate env).errors = [])) := by
  refine ⟨?_, ?_, ?_⟩
  · intro h1 h2
    simp [getModelDimensions, h1, h2]
  · intro h1 h2
    simp [getModelDimensions, h1, h2]
  · intro hm hne hlk hmock
    constructor
    · simp [validate, hm, jsOrStr, hne, hlk, hmock]
    · intro h1 h2
      simp [validate, hm, jsOrStr, hne, hlk, hmock, h1, h2, jsTruthyStr]

/-- C7 witness: `"my-custom-model"` resolves to 1536 with a warning and no
error; `"voyage-custom-y"` resolves to 1024. -/
theorem c7_witness :
    getModelDimensions "my-custom-model" = 1536
    ∧ getModelDimensions "voyage-custom-y" = 1024
    ∧ unrecognizedModelWarning "my-custom-model" ∈ (validate envUnknownModel).warnings
    ∧ (validate envUnknownModel).errors = [] := by
  have h := c7_unknown_model_defaults "my-custom-model" envUnknownModel
  have hv := c7_unknown_model_defaults "voyage-custom-y" envUnknownModel
  have h1 := h.1 (by decide) (by decide)
  have h2 := hv.2.1 (by decide) (by decide)
  have h3 := h.2.2 rfl (by decide) (by decide) (by decide)
  exact ⟨h1, h2, h3.1, h3.2 rfl rfl⟩

/-- C4 counterexample: an authentication failure (HTTP 401) and a rate-limit
failure (HTTP 429) surface as errors with the identical kind `"Error"` — the
caller cannot distinguish retryable from fatal by the error's kind, only the
message texts differ. -/
theorem c4_counterexample_kind_indistinguishable :
    (voyageGenerateEmbeddingCatch "Request failed with status code 401").name
      = (voyageGenerateEmbeddingCatch "Request failed with status code 429").name
    ∧ (voyageGenerateEmbeddingCatch "Request failed with status code 401").message
      ≠ (voyageGenerateEmbeddingCatch "Request failed with status code 429").message
    ∧ (cohereRerankCatch "Request failed with status code 401").name
      = (cohereRerankCatch "Request failed with status code 429").name := by
  exact ⟨by decide, by decide, by decide⟩

/-- C4 (amended): every failure surfaced by
`VoyageAIEmbeddingService.generateEmbedding` and
`CohereRerankingService.rerank` is a plain `Error` (kind `"Error"`); the
failure category is chosen by substring matching on the underlying message
and is encoded only in the surfaced message text. -/
theorem c4_errors_distinguished_only_by_message (errorMessage : String) :
    (voyageGenerateEmbeddingCatch errorMessage).name = "Error"
    ∧ (cohereRerankCatch errorMessage).name = "Error"
    ∧ ((jsIncludes errorMessage "401" ∨ jsIncludes errorMessage "authentication") →
        (voyageGenerateEmbeddingCatch errorMessage).message
          = "Voyage AI API authentication failed - invalid API key")
    ∧ (¬ (jsIncludes errorMessage "401" ∨ jsIncludes errorMessage "authentication") →
       (jsIncludes errorMessage "429" ∨ jsIncludes errorMessage "rate limit") →
        (voyageGenerateEmbeddingCatch errorMessage).message
          = "Voyage AI API rate limit exceeded - try again later") := by
  refine ⟨rfl, rfl, ?_, ?_⟩
  · intro h
    unfold voyageGenerateEmbeddingCatch voyageCatchMessage jsNewError
    rw [if_pos h]
  · intro h1 h2
    unfold voyageGenerateEmbeddingCatch voyageCatchMessage jsNewError
    rw [if_neg h1, if_pos h2]

/-- C4 witness: a 429 failure surfaces with kind `"Error"` and the rate-limit
message. -/
theorem c4_witness :
    (voyageGenerateEmbeddingCatch "Request failed with status code 429").name = "Error"
    ∧ (voyageGenerateEmbeddingCatch "Request failed with status code 429").message
      = "Voyage AI API rate limit exceeded - try again later" := by
  have h := c4_errors_distinguished_only_by_message "Request failed with status code 429"
  exact ⟨h.1, h.2.2.2 (by decide) (by decide)⟩

/-- C10: for a Voyage service configured with a non-zero dimensions override
and a resolved model not starting with `voyage-3`, the embed requests built by
`generateEmbedding` and `generateEmbeddings` carry no `outputDimension`, while
`getModelInfo().dimensions` still reports the override. -/
theorem c10_non_voyage3_override (config : VoyageAIEmbeddingConfig) (env : VoyageEnv)
    (d : Nat) (text : String) (texts : List String)
    (hd : config.dimensions = some d) (hdnz : d ≠ 0)
    (hm : jsStartsWith (voyageInit config env).model "voyage-3" = false) :
    (voyageGenerateEmbeddingParams (voyageInit config env) text).outputDimension = none
    ∧ (voyageGenerateEmbeddingsParams (voyageInit config env) texts).outputDimension = none
    ∧ (voyageGetModelInfo (voyageInit config env)).dimensions = d := by
  refine ⟨?_, ?_, ?_⟩
  · simp [voyageGenerateEmbeddingParams, voyageBuildEmbedParams, hm]
  · simp [voyageGenerateEmbeddingsParams, voyageBuildEmbedParams, hm]
  · simp [voyageGetModelInfo, voyageInit, jsOrNat, hd, hdnz]

/-- C10 witness: model `voyage-code-2` with override 999 — no
`outputDimension` in either request, reported dimensions 999 (the model's
native table entry is 1536). -/
theorem c10_witness :
    (voyageGenerateEmbeddingParams (voyageInit cfgW venvW) "hello").outputDimension = none
    ∧ (voyageGenerateEmbeddingsParams (voyageInit cfgW venvW) ["a", "b"]).outputDimension = none
    ∧ (voyageGetModelInfo (voyageInit cfgW venvW)).dimensions = 999 :=
  c10_non_voyage3_override cfgW venvW 999 "hello" ["a", "b"] rfl (by decide) (by decide)

/-- C9: with no custom query and both `onlyMissing` and `force` false (the
defaults), the selection and count queries are identical to the
`onlyMissing = true` queries; and the `e.embedding IS NULL` restriction is in
the conditions exactly when `onlyMissing` is set or `force` is unset — so
`force = true` is the only way to select entities that already have
embeddings. -/
theorem c9_default_selection_only_missing :
    (∀ bs ets np lim bd dr,
      getEntitiesQuery ⟨bs, ets, np, false, false, dr, lim, bd, none⟩
        = getEntitiesQuery ⟨bs, ets, np, true, false, dr, lim, bd, none⟩)
    ∧ (∀ bs ets np lim bd dr,
      countEntitiesQuery ⟨bs, ets, np, false, false, dr, lim, bd, none⟩
        = countEntitiesQuery ⟨bs, ets, np, true, false, dr, lim, bd, none⟩)
    ∧ (∀ opts : ReindexOptions,
      "e.embedding IS NULL" ∈ reindexConditions opts
        ↔ (opts.onlyMissing = true ∨ opts.force = false)) := by
  refine ⟨fun bs ets np lim bd dr => rfl, fun bs ets np lim bd dr => rfl, ?_⟩
  intro opts
  obtain ⟨bs, ets, np, om, fo, dr, lim, bd, cq⟩ := opts
  unfold reindexConditions
  cases om <;> cases fo <;>
    cases ets <;> cases np <;>
      simp_all

/-- C9 witness: at the default options the two query texts agree and the
NULL-embedding restriction is present. -/
theorem c9_witness :
    getEntitiesQuery ⟨none, none, none, false, false, false, none, none, none⟩
      = getEntitiesQuery ⟨none, none, none, true, false, false, none, none, none⟩
    ∧ "e.embedding IS NULL"
        ∈ reindexConditions ⟨none, none, none, false, false, false, none, none, none⟩ := by
  have h := c9_default_selection_only_missing
  exact ⟨h.1 none none none none none false, (h.2.2 _).mpr (Or.inr rfl)⟩

/-- C2 counterexample: a generation failure whose thrown error has an empty
message is recorded with an empty error message — the claim's universally
quantified "non-empty message" fails. -/
theorem c2_counterexample_empty_message :
    (reindexEmbeddings genEmptyMsgFail storeOk [entA] optsPlain).1.failed = 1
    ∧ (reindexEmbeddings genEmptyMsgFail storeOk [entA] optsPlain).1.errors = [("A", "")]
    ∧ ¬ (∀ p ∈ (reindexEmbeddings genEmptyMsgFail storeOk [entA] optsPlain).1.errors,
          p.2 ≠ "") := by
  refine ⟨by decide, by decide, ?_⟩
  intro hall
  exact hall ("A", "") (by decide) rfl

/-- C2 (amended): for every non-dry-run `reindexEmbeddings` run, a failure of
the generation or storage step for one entity increments `failed` by 1 and
appends `(entityName, message)` carrying the failure's own error message
(hence non-empty exactly when the thrown message is non-empty), and
processing of the remaining entities continues: `processed` equals the full
entity count and the counts/errors are exactly determined by which entities
fail. -/
theorem c2_per_entity_failure_isolation (g : String → Except String (List ℚ))
    (s : String → List ℚ → Except String Unit) (entities : List EntityBatch)
    (options : ReindexOptions) (hdr : options.dryRun = false) :
    (reindexEmbeddings g s entities options).1.total = entities.length
    ∧ (reindexEmbeddings g s entities options).1.processed = entities.length
    ∧ (reindexEmbeddings g s entities options).1.succeeded
        = (entities.filter (fun e => ! entityFails g s e)).length
    ∧ (reindexEmbeddings g s entities options).1.failed
        = (entities.filter (entityFails g s)).length
    ∧ (reindexEmbeddings g s entities options).1.errors
        = (entities.filter (entityFails g s)).map (fun e => (e.name, entityError g s e)) := by
  by_cases h0 : entities.length = 0
  · have he : entities = [] := List.length_eq_zero.mp h0
    subst he
    simp [reindexEmbeddings]
  · obtain ⟨r1, r2, r3, r4, r5⟩ :=
      reindexLoop_counts g s (jsOrNat options.batchSize 10) (jsOrNat options.batchDelay 1000)
        entities.length entities (le_refl _) ⟨0, 0, 0, 0, [], []⟩
    simp only [reindexEmbeddings, h0, hdr, if_false, Bool.false_eq_true]
    exact ⟨by simp, by rw [r1]; simp, by rw [r2]; simp, by rw [r3]; simp,
      by rw [r5]; simp⟩

/-- C2 witness: one injected failure among 10 entities yields `succeeded = 9`,
`failed = 1`, a fully processed run, and the failing entity's name with its
non-empty message in the error list. -/
theorem c2_witness_ten_entities :
    (reindexEmbeddings genFailE5 storeOk ents10 optsPlain).1.succeeded = 9
    ∧ (reindexEmbeddings genFailE5 storeOk ents10 optsPlain).1.failed = 1
    ∧ (reindexEmbeddings genFailE5 storeOk ents10 optsPlain).1.processed = 10
    ∧ (reindexEmbeddings genFailE5 storeOk ents10 optsPlain).1.errors
        = [("E5", "Injected failure")]
    ∧ "Injected failure" ≠ "" := by
  have h := c2_per_entity_failure_isolation genFailE5 storeOk ents10 optsPlain rfl
  refine ⟨?_, ?_, ?_, ?_, by decide⟩
  · rw [h.2.2.1]; decide
  · rw [h.2.2.2.1]; decide
  · rw [h.2.1]; decide
  · rw [h.2.2.2.2]; decide

/-- C5: with `dryRun = true`, `reindexEmbeddings` performs no effect at all —
no embedding generation, no storage write, no sleep — and returns
`total = |entities|` with `processed = succeeded = failed = skipped = 0` and
no errors. -/
theorem c5_dry_run_pure (g : String → Except String (List ℚ))
    (s : String → List ℚ → Except String Unit) (entities : List EntityBatch)
    (options : ReindexOptions) (hdr : options.dryRun = true) :
    reindexEmbeddings g s entities options = (⟨entities.length, 0, 0, 0, 0, []⟩, []) := by
  unfold reindexEmbeddings
  by_cases h0 : entities.length = 0
  · simp [h0]
  · simp [h0, hdr]

/-- C5 witness: a dry run over two entities with an always-succeeding service
reports `total = 2` and zero counts, with an empty effect trace. -/
theorem c5_witness :
    reindexEmbeddings genOk storeOk [entA, entB] optsDry = (⟨2, 0, 0, 0, 0, []⟩, []) :=
  c5_dry_run_pure genOk storeOk [entA, entB] optsDry rfl

/-- C6 counterexample: with a configured inter-batch delay of 0 (two batches
of one entity each), the run sleeps 1000 ms between the batches — the
JavaScript `options.batchDelay || 1000` replaces a configured 0 by the
default — contradicting "sleeps exactly the configured delay d" at `d = 0`. -/
theorem c6_counterexample_zero_delay :
    ((reindexEmbeddings genOk storeOk [entA, entB] optsDelayZero).2).filter isSleepEffect
      = [Effect.sleep 1000]
    ∧ Effect.sleep 1000 ≠ Effect.sleep 0 := by
  exact ⟨by decide, by decide⟩

/-- C6 (amended): for every non-dry-run reindex with a configured positive
inter-batch delay `d`, the run sleeps exactly `d` between consecutive batches
(`⌈n / batchSize⌉ - 1` sleeps in total) and never after the final batch (the
trace of a non-empty run ends in a non-sleep effect); a configured delay of 0
would instead be replaced by the default 1000 ms. -/
theorem c6_positive_delay_between_batches (g : String → Except String (List ℚ))
    (s : String → List ℚ → Except String Unit) (entities : List EntityBatch)
    (options : ReindexOptions) (d : Nat)
    (hdr : options.dryRun = false) (hd : options.batchDelay = some d) (hdpos : 0 < d) :
    ((reindexEmbeddings g s entities options).2).filter isSleepEffect
      = List.replicate (ceilDiv entities.length (jsOrNat options.batchSize 10) - 1)
          (Effect.sleep d)
    ∧ (entities ≠ [] →
       ∃ eff, ((reindexEmbeddings g s entities options).2).getLast? = some eff
         ∧ isSleepEffect eff = false) := by
  have hbd : jsOrNat options.batchDelay 1000 = d := by
    rw [hd]
    simp [jsOrNat, Nat.pos_iff_ne_zero.mp hdpos]
  have hbs : 0 < jsOrNat options.batchSize 10 := by
    cases hob : options.batchSize with
    | none => simp [jsOrNat]
    | some v =>
      by_cases hv : v = 0
      · simp [jsOrNat, hv]
      · simp [jsOrNat, hv]
        omega
  constructor
  · by_cases h0 : entities.length = 0
    · have he : entities = [] := List.length_eq_zero.mp h0
      subst he
      have hc0 : ceilDiv 0 (jsOrNat options.batchSize 10) = 0 := by
        unfold ceilDiv
        exact Nat.div_eq_of_lt (by omega)
      simp [reindexEmbeddings, hc0]
    · have hsl := reindexLoop_sleeps g s (jsOrNat options.batchSize 10) d hbs hdpos
        entities.length entities (le_refl _) ⟨0, 0, 0, 0, [], []⟩
      simp only [reindexEmbeddings, h0, hdr, if_false, Bool.false_eq_true]
      rw [hbd]
      simpa using hsl
  · intro hne
    have h0 : ¬ entities.length = 0 := by
      simp [List.length_eq_zero]
      exact hne
    have hl := reindexLoop_last g s (jsOrNat options.batchSize 10)
      (jsOrNat options.batchDelay 1000) entities.length entities (le_refl _) hne
      ⟨0, 0, 0, 0, [], []⟩
    simp only [reindexEmbeddings, h0, hdr, if_false, Bool.false_eq_true]
    exact hl

/-- C6 witness: three entities in batches of two with configured delay 5 —
exactly one 5 ms sleep, and the trace ends in a non-sleep effect. -/
theorem c6_witness :
    ((reindexEmbeddings genOk storeOk [entA, entB, entC] optsDelayFive).2).filter
        isSleepEffect
      = [Effect.sleep 5]
    ∧ (∃ eff, ((reindexEmbeddings genOk storeOk [entA, entB, entC] optsDelayFive).2).getLast?
          = some eff ∧ isSleepEffect eff = false) := by
  have h := c6_positive_delay_between_batches genOk storeOk [entA, entB, entC]
    optsDelayFive 5 rfl rfl (by decide)
  refine ⟨?_, h.2 (by decide)⟩
  rw [h.1]
  decide

/-- Looking up the key of an in-place `Map.set` replacement. -/
theorem lookup_map_replace (m : List (String × RRFEntry)) (k : String) (v : RRFEntry)
    (h : (m.lookup k).isSome) :
    (m.map (fun p => if p.1 = k then (k, v) else p)).lookup k = some v := by
  induction m with
  | nil => simp at h
  | cons p rest ih =>
    obtain ⟨pk, pv⟩ := p
    rw [List.map_cons]
    by_cases hp : pk = k
    · subst hp
      rw [if_pos (show (pk, pv).1 = pk from rfl)]
      simp [List.lookup]
    · have hb : (k == pk) = false := beq_eq_false_iff_ne.mpr (fun h2 => hp h2.symm)
      have h2 : (rest.lookup k).isSome := by
        simpa [List.lookup, hb] using h
      rw [if_neg hp]
      simp only [List.lookup, hb]
      exact ih h2

/-- Looking up the key of a `Map.set` that appended a new entry. -/
theorem lookup_append_self (m : List (String × RRFEntry)) (k : String) (v : RRFEntry)
    (h : m.lookup k = none) :
    (m ++ [(k, v)]).lookup k = some v := by
  induction m with
  | nil => simp [List.lookup]
  | cons p rest ih =>
    obtain ⟨pk, pv⟩ := p
    by_cases hp : pk = k
    · subst hp
      simp [List.lookup] at h
    · have hb : (k == pk) = false := beq_eq_false_iff_ne.mpr (fun h2 => hp h2.symm)
      simp only [List.lookup, hb] at h
      rw [List.cons_append]
      simp only [List.lookup, hb]
      exact ih h

/-- An in-place `Map.set` replacement leaves other keys unchanged. -/
theorem lookup_map_replace_ne (m : List (String × RRFEntry)) (k : String) (v : RRFEntry)
    (q : String) (hq : q ≠ k) :
    (m.map (fun p => if p.1 = k then (k, v) else p)).lookup q = m.lookup q := by
  induction m with
  | nil => simp
  | cons p rest ih =>
    obtain ⟨pk, pv⟩ := p
    rw [List.map_cons]
    by_cases hp : pk = k
    · subst hp
      have hb : (q == pk) = false := beq_eq_false_iff_ne.mpr hq
      rw [if_pos (show (pk, pv).1 = pk from rfl)]
      simp only [List.lookup, hb]
      exact ih
    · rw [if_neg hp]
      by_cases hpq : pk = q
      · subst hpq
        simp [List.lookup]
      · have hb : (q == pk) = false := beq_eq_false_iff_ne.mpr (fun h2 => hpq h2.symm)
        simp only [List.lookup, hb]
        exact ih

/-- An appending `Map.set` leaves other keys unchanged. -/
theorem lookup_append_ne (m : List (String × RRFEntry)) (k : String) (v : RRFEntry)
    (q : String) (hq : q ≠ k) :
    (m ++ [(k, v)]).lookup q = m.lookup q := by
  induction m with
  | nil =>
    have hb : (q == k) = false := beq_eq_false_iff_ne.mpr hq
    simp [List.lookup, hb]
  | cons p rest ih =>
    obtain ⟨pk, pv⟩ := p
    rw [List.cons_append]
    by_cases hpq : pk = q
    · subst hpq
      simp [List.lookup]
    · have hb : (q == pk) = false := beq_eq_false_iff_ne.mpr (fun h2 => hpq h2.symm)
      simp only [List.lookup, hb]
      exact ih

/-- `jsMapSet` then lookup at the written key. -/
theorem jsMapSet_lookup_same (m : List (String × RRFEntry)) (k : String) (v : RRFEntry) :
    (jsMapSet m k v).lookup k = some v := by
  unfold jsMapSet
  split
  · exact lookup_map_replace m k v (by assumption)
  · refine lookup_append_self m k v ?_
    rename_i h
    exact Option.not_isSome_iff_eq_none.mp h

/-- `jsMapSet` then lookup at a different key. -/
theorem jsMapSet_lookup_ne (m : List (String × RRFEntry)) (k : String) (v : RRFEntry)
    (q : String) (hq : q ≠ k) :
    (jsMapSet m k v).lookup q = m.lookup q := by
  unfold jsMapSet
  split
  · exact lookup_map_replace_ne m k v q hq
  · exact lookup_append_ne m k v q hq

/-- The vector pass, looked up at an entity: ids outside the pass are
untouched; for duplicate-free vector results, a listed id holds score
`1 / (rrfK + (index + indexOf) + 1)`. -/
theorem rrfVectorPass_lookup (rrfK : ℚ) :
    ∀ (V : List VectorRecord) (i : Nat) (m : List (String × RRFEntry)) (e : String),
    (V.map VectorRecord.id).Nodup →
    (e ∉ V.map VectorRecord.id → (rrfVectorPass rrfK i V m).lookup e = m.lookup e)
    ∧ (e ∈ V.map VectorRecord.id →
        ∃ entry, (rrfVectorPass rrfK i V m).lookup e = some entry
          ∧ entry.score
              = 1 / (rrfK + ((i + (V.map VectorRecord.id).indexOf e : ℕ) : ℚ) + 1)) := by
  intro V
  induction V with
  | nil =>
    intro i m e _
    exact ⟨fun _ => rfl, fun h => absurd h (by simp)⟩
  | cons r rest ih =>
    intro i m e hnd
    simp only [List.map_cons, List.nodup_cons] at hnd
    obtain ⟨hnotin, hnd2⟩ := hnd
    simp only [rrfVectorPass]
    obtain ⟨ihn, ihy⟩ :=
      ih (i + 1)
        (jsMapSet m r.id ⟨1 / (rrfK + i + 1), r.entityType, some r.vectorScore, none⟩) e hnd2
    constructor
    · intro he
      simp only [List.map_cons, List.mem_cons, not_or] at he
      rw [ihn he.2, jsMapSet_lookup_ne m _ _ e he.1]
    · intro he
      simp only [List.map_cons, List.mem_cons] at he
      by_cases hid : e = r.id
      · subst hid
        have hnr : r.id ∉ rest.map VectorRecord.id := hnotin
        refine ⟨⟨1 / (rrfK + i + 1), r.entityType, some r.vectorScore, none⟩, ?_, ?_⟩
        · rw [ihn hnr]
          exact jsMapSet_lookup_same m _ _
        · simp [List.map_cons, List.indexOf_cons_self]
      · have hmem : e ∈ rest.map VectorRecord.id := he.resolve_left hid
        obtain ⟨entry, h1, h2⟩ := ihy hmem
        refine ⟨entry, h1, ?_⟩
        rw [h2]
        simp only [List.map_cons]
        have hidx : List.indexOf e (r.id :: rest.map VectorRecord.id)
            = (List.indexOf e (rest.map VectorRecord.id)) + 1 :=
          List.indexOf_cons_ne _ (fun h => hid h.symm)
        have harith : (i + 1) + List.indexOf e (rest.map VectorRecord.id)
            = i + List.indexOf e (r.id :: rest.map VectorRecord.id) := by
          rw [hidx]
          omega
        rw [harith]

/-- The keyword pass, looked up at an entity: ids outside the pass are
untouched; for duplicate-free keyword results, a listed id's score is its
previous score (0 when absent) plus `1 / (rrfK + (index + indexOf) + 1)`. -/
theorem rrfKeywordPass_lookup (rrfK : ℚ) :
    ∀ (K : List KeywordRecord) (i : Nat) (m : List (String × RRFEntry)) (e : String),
    (K.map KeywordRecord.id).Nodup →
    (e ∉ K.map KeywordRecord.id → (rrfKeywordPass rrfK i K m).lookup e = m.lookup e)
    ∧ (e ∈ K.map KeywordRecord.id →
        ∃ entry, (rrfKeywordPass rrfK i K m).lookup e = some entry
          ∧ entry.score
              = (m.lookup e).elim 0 RRFEntry.score
                + 1 / (rrfK + ((i + (K.map KeywordRecord.id).indexOf e : ℕ) : ℚ) + 1)) := by
  intro K
  induction K with
  | nil =>
    intro i m e _
    exact ⟨fun _ => rfl, fun h => absurd h (by simp)⟩
  | cons r rest ih =>
    intro i m e hnd
    simp only [List.map_cons, List.nodup_cons] at hnd
    obtain ⟨hnotin, hnd2⟩ := hnd
    simp only [rrfKeywordPass]
    cases hme : m.lookup r.id with
    | some ex =>
      obtain ⟨ihn, ihy⟩ :=
        ih (i + 1)
          (jsMapSet m r.id
            ⟨ex.score + 1 / (rrfK + i + 1), r.entityType, ex.vectorScore, some r.bm25Score⟩)
          e hnd2
      constructor
      · intro he
        simp only [List.map_cons, List.mem_cons, not_or] at he
        rw [ihn he.2, jsMapSet_lookup_ne m _ _ e he.1]
      · intro he
        simp only [List.map_cons, List.mem_cons] at he
        by_cases hid : e = r.id
        · subst hid
          have hnr : r.id ∉ rest.map KeywordRecord.id := hnotin
          refine ⟨⟨ex.score + 1 / (rrfK + i + 1), r.entityType, ex.vectorScore,
            some r.bm25Score⟩, ?_, ?_⟩
          · rw [ihn hnr]
            exact jsMapSet_lookup_same m _ _
          · simp [hme, List.map_cons, List.indexOf_cons_self]
        · have hmem : e ∈ rest.map KeywordRecord.id := he.resolve_left hid
          obtain ⟨entry, h1, h2⟩ := ihy hmem
          refine ⟨entry, h1, ?_⟩
          rw [h2, jsMapSet_lookup_ne m _ _ e hid]
          simp only [List.map_cons]
          have hidx : List.indexOf e (r.id :: rest.map KeywordRecord.id)
              = (List.indexOf e (rest.map KeywordRecord.id)) + 1 :=
            List.indexOf_cons_ne _ (fun h => hid h.symm)
          have harith : (i + 1) + List.indexOf e (rest.map KeywordRecord.id)
              = i + List.indexOf e (r.id :: rest.map KeywordRecord.id) := by
            rw [hidx]
            omega
          rw [harith]
    | none =>
      obtain ⟨ihn, ihy⟩ :=
        ih (i + 1)
          (jsMapSet m r.id ⟨1 / (rrfK + i + 1), r.entityType, none, some r.bm25Score⟩)
          e hnd2
      constructor
      · intro he
        simp only [List.map_cons, List.mem_cons, not_or] at he
        rw [ihn he.2, jsMapSet_lookup_ne m _ _ e he.1]
      · intro he
        simp only [List.map_cons, List.mem_cons] at he
        by_cases hid : e = r.id
        · subst hid
          have hnr : r.id ∉ rest.map KeywordRecord.id := hnotin
          refine ⟨⟨1 / (rrfK + i + 1), r.entityType, none, some r.bm25Score⟩, ?_, ?_⟩
          · rw [ihn hnr]
            exact jsMapSet_lookup_same m _ _
          · simp [hme, List.map_cons, List.indexOf_cons_self]
        · have hmem : e ∈ rest.map KeywordRecord.id := he.resolve_left hid
          obtain ⟨entry, h1, h2⟩ := ihy hmem
          refine ⟨entry, h1, ?_⟩
          rw [h2, jsMapSet_lookup_ne m _ _ e hid]
          simp only [List.map_cons]
          have hidx : List.indexOf e (r.id :: rest.map KeywordRecord.id)
              = (List.indexOf e (rest.map KeywordRecord.id)) + 1 :=
            List.indexOf_cons_ne _ (fun h => hid h.symm)
          have harith : (i + 1) + List.indexOf e (rest.map KeywordRecord.id)
              = i + List.indexOf e (r.id :: rest.map KeywordRecord.id) := by
            rw [hidx]
            omega
          rw [harith]

/-- C3: for duplicate-free sub-query result lists (the two queries return
distinct entities, and a 1-based rank is only well defined then), the fused
RRF score of every entity `e` equals
`[e∈V]·1/(k+rank_V(e)) + [e∈K]·1/(k+rank_K(e))`, contributions summed when
`e` is in both lists and the single contribution kept otherwise; and the
fused output ordering is reproducible: the embedded fusion is a pure function
of its inputs whose output is sorted by fused score descending (stable sort,
ties kept in `Map` insertion order). -/
theorem c3_rrf_fused_score (rrfK : ℚ) (V : List VectorRecord) (K : List KeywordRecord)
    (e : String) (limit : Nat)
    (hV : (V.map VectorRecord.id).Nodup) (hK : (K.map KeywordRecord.id).Nodup) :
    rrfFusedScore rrfK V K e
      = (if e ∈ V.map VectorRecord.id
          then 1 / (rrfK + (((V.map VectorRecord.id).indexOf e + 1 : ℕ) : ℚ)) else 0)
        + (if e ∈ K.map KeywordRecord.id
          then 1 / (rrfK + (((K.map KeywordRecord.id).indexOf e + 1 : ℕ) : ℚ)) else 0)
    ∧ (hybridSearchWithRRF rrfK limit V K).Pairwise
        (fun a b => b.similarity ≤ a.similarity) := by
  constructor
  · have hfe : rrfFusedScore rrfK V K e
        = ((rrfKeywordPass rrfK 0 K (rrfVectorPass rrfK 0 V [])).lookup e).elim 0
            RRFEntry.score := by
      unfold rrfFusedScore rrfScoresMap
      cases (rrfKeywordPass rrfK 0 K (rrfVectorPass rrfK 0 V [])).lookup e <;> rfl
    obtain ⟨kn, ky⟩ := rrfKeywordPass_lookup rrfK K 0 (rrfVectorPass rrfK 0 V []) e hK
    obtain ⟨vn, vy⟩ := rrfVectorPass_lookup rrfK V 0 [] e hV
    rw [hfe]
    by_cases heK : e ∈ K.map KeywordRecord.id
    · obtain ⟨entry, h1, h2⟩ := ky heK
      rw [h1, Option.elim_some, h2]
      by_cases heV : e ∈ V.map VectorRecord.id
      · obtain ⟨ev, hv1, hv2⟩ := vy heV
        rw [hv1, Option.elim_some, hv2, if_pos heV, if_pos heK]
        push_cast
        ring
      · have hnone : (rrfVectorPass rrfK 0 V []).lookup e = none := (vn heV).trans rfl
        rw [hnone, Option.elim_none, if_neg heV, if_pos heK]
        push_cast
        ring
    · rw [kn heK]
      by_cases heV : e ∈ V.map VectorRecord.id
      · obtain ⟨ev, hv1, hv2⟩ := vy heV
        rw [hv1, Option.elim_some, hv2, if_pos heV, if_neg heK]
        push_cast
        ring
      · have hnone : (rrfVectorPass rrfK 0 V []).lookup e = none := (vn heV).trans rfl
        rw [hnone, Option.elim_none, if_neg heV, if_neg heK]
        norm_num
  · unfold hybridSearchWithRRF
    have hs :=
      @List.sorted_mergeSort (String × RRFEntry)
        (fun a b => decide (b.2.score ≤ a.2.score))
        (by
          intro a b c h1 h2
          simp at h1 h2 ⊢
          exact le_trans h2 h1)
        (by
          intro a b
          simp [le_total])
        (rrfScoresMap rrfK V K)
    have hp : ((rrfScoresMap rrfK V K).mergeSort
        (fun a b => decide (b.2.score ≤ a.2.score))).Pairwise
        (fun a b : String × RRFEntry => b.2.score ≤ a.2.score) :=
      hs.imp (by intro a b h; simpa using h)
    have ht := hp.sublist (List.take_sublist limit _)
    rw [List.pairwise_map]
    exact ht

/-- C3 witness: `k = 60`, vector results `[a, b]`, keyword results `[b, c]` —
the fused score of `b` is `1/(60+2) + 1/(60+1)`, and the fused output is
sorted by score descending. -/
theorem c3_witness :
    rrfFusedScore 60 rrfVW rrfKW "b" = 1 / 62 + 1 / 61
    ∧ (hybridSearchWithRRF 60 10 rrfVW rrfKW).Pairwise
        (fun a b => b.similarity ≤ a.similarity) := by
  have h := c3_rrf_fused_score 60 rrfVW rrfKW "b" 10 (by decide) (by decide)
  refine ⟨?_, h.2⟩
  rw [h.1]
  have hm1 : "b" ∈ rrfVW.map VectorRecord.id := by decide
  have hm2 : "b" ∈ rrfKW.map KeywordRecord.id := by decide
  rw [if_pos hm1, if_pos hm2,
    show (rrfVW.map VectorRecord.id).indexOf "b" = 1 from rfl,
    show (rrfKW.map KeywordRecord.id).indexOf "b" = 0 from rfl]
  norm_num

/-- Reading the field a spread just set. -/
theorem metaSet_get_same (m : Metadata) (f : String) (v : MetaVal) :
    metaSet m f v f = some v := by
  simp [metaSet]

/-- Reading a different field than a spread just set. -/
theorem metaSet_get_ne (m : Metadata) (f : String) (v : MetaVal) (q : String) (h : q ≠ f) :
    metaSet m f v q = m q := by
  simp [metaSet, h]

/-- The Cohere result mapping succeeds on an in-range response and maps each
response entry to the result built from its original document. -/
theorem cohereMapResults_get (documents : List RerankDocument) :
    ∀ apiResults : List CohereApiResult,
    (∀ r ∈ apiResults, r.index < documents.length) →
    ∃ out, cohereMapResults documents apiResults = some out
      ∧ out.length = apiResults.length
      ∧ ∀ i r, apiResults.get? i = some r →
          ∃ d o, documents.get? r.index = some d ∧ out.get? i = some o
            ∧ o = mkRerankResult d r := by
  intro apiResults
  induction apiResults with
  | nil =>
    intro _
    exact ⟨[], rfl, rfl, by intro i r h; simp at h⟩
  | cons r rest ih =>
    intro hidx
    have hr : r.index < documents.length := hidx r (List.mem_cons_self r rest)
    have hd : documents.get? r.index = some (documents.get ⟨r.index, hr⟩) :=
      List.get?_eq_get hr
    obtain ⟨out, h1, hlen, h3⟩ := ih (fun x hx => hidx x (List.mem_cons_of_mem r hx))
    refine ⟨mkRerankResult (documents.get ⟨r.index, hr⟩) r :: out, ?_, by simp [hlen], ?_⟩
    · simp only [cohereMapResults]
      rw [hd, h1]
    · intro i rr hget
      cases i with
      | zero =>
        simp only [List.get?_cons_zero, Option.some_inj] at hget
        subst hget
        exact ⟨documents.get ⟨r.index, hr⟩, mkRerankResult (documents.get ⟨r.index, hr⟩) r,
          hd, by simp, rfl⟩
      | succ n =>
        simp only [List.get?_cons_succ] at hget
        obtain ⟨d, o, hdo, hoo, heq⟩ := h3 n rr hget
        exact ⟨d, o, hdo, by simpa using hoo, heq⟩

/-- C8: for a non-empty result list and an in-range reranker response,
`rerankVectorSearchResults` returns, for each response entry, a result whose
`similarity` is the reranker's relevance score, whose metadata records the
input result's original similarity as `originalSimilarity`, and whose
`metadata.searchMethod` is `vector+rerank`. -/
theorem c8_rerank_vector_results_mapping (results : List VectorSearchResult)
    (entityTexts : List (String × String)) (apiResults : List CohereApiResult)
    (hne : results ≠ [])
    (hidx : ∀ r ∈ apiResults, r.index < results.length) :
    ∃ out, rerankVectorSearchResults results entityTexts apiResults = some out
      ∧ out.length = apiResults.length
      ∧ ∀ i r, apiResults.get? i = some r →
          ∃ o, out.get? i = some o
            ∧ o.similarity = r.relevanceScore
            ∧ o.metadata "searchMethod" = some (.str "vector+rerank")
            ∧ (∀ v, results.get? r.index = some v →
                o.metadata "originalSimilarity" = some (.num v.similarity)) := by
  have hidx2 : ∀ r ∈ apiResults,
      r.index < (results.map (vectorResultToDocument entityTexts)).length := by
    intro r hr
    rw [List.length_map]
    exact hidx r hr
  obtain ⟨mid, h1, hmlen, h3⟩ :=
    cohereMapResults_get (results.map (vectorResultToDocument entityTexts)) apiResults hidx2
  have hrl : ¬ results.length = 0 := by
    simp only [List.length_eq_zero]
    exact hne
  refine ⟨mid.map rerankResultToVector, ?_, by simp [hmlen], ?_⟩
  · unfold rerankVectorSearchResults cohereRerank
    simp [hrl, h1]
  · intro i r hget
    obtain ⟨dd, oo, hd, ho, heq⟩ := h3 i r hget
    subst heq
    refine ⟨rerankResultToVector (mkRerankResult dd r), ?_, rfl, ?_, ?_⟩
    · rw [List.get?_map, ho]
      rfl
    · simp only [rerankResultToVector]
      exact metaSet_get_same _ _ _
    · intro v hv
      have hdd : dd = vectorResultToDocument entityTexts v := by
        rw [List.get?_map, hv] at hd
        simpa using hd.symm
      subst hdd
      have e1 : (rerankResultToVector
            (mkRerankResult (vectorResultToDocument entityTexts v) r)).metadata
            "originalSimilarity"
          = some (((mkRerankResult (vectorResultToDocument entityTexts v) r).score).getD
              .undef) := by
        simp only [rerankResultToVector]
        rw [metaSet_get_ne _ _ _ _ (by decide), metaSet_get_same]
      rw [e1]
      simp [mkRerankResult, vectorResultToDocument, metaSet_get_same]

/-- C8 witness: one result with similarity 1/2 reranked to relevance 9/10 —
the output similarity is 9/10, `originalSimilarity` is 1/2, and
`searchMethod` is `vector+rerank`. -/
theorem c8_witness :
    ∃ out, rerankVectorSearchResults resultsW textsW apiW = some out
      ∧ ∃ o, out.get? 0 = some o
          ∧ o.similarity = 9 / 10
          ∧ o.metadata "searchMethod" = some (.str "vector+rerank")
          ∧ o.metadata "originalSimilarity" = some (.num (1 / 2)) := by
  obtain ⟨out, h1, hlen, h3⟩ := c8_rerank_vector_results_mapping resultsW textsW apiW
    (List.cons_ne_nil vsrW []) (by intro r hr; simp [apiW] at hr; simp [hr, resultsW])
  obtain ⟨o, ho, hsim, hsm, horig⟩ := h3 0 ⟨0, 9 / 10⟩ rfl
  exact ⟨out, h1, o, ho, hsim, hsm, horig vsrW rfl⟩

end Memento
